import Mathlib

/-!
# Backend/config/firebaseConfig.js

A shallow embedding of the configuration module

    var admin = require("firebase-admin");
    require('dotenv').config();
    const serviceAccount = JSON.parse(process.env.FIREBASE_SERVICE_ACCOUNT);
    admin.initializeApp({ credential: admin.credential.cert(serviceAccount), });
    const db = admin.firestore();
    const adminAuth = admin.auth();
    module.exports = { admin, db, adminAuth };

The module body is a straight line of calls into its host: the `dotenv`
library, the built-in `JSON.parse` and the `firebase-admin` SDK.  The
embedding runs the body as a function of the process state (environment
and SDK state) and records every host call together with its outcome.

* `JSON.parse` is modelled by an executable recogniser of the JSON grammar
  (a scanner that reads one character at a time).
* `dotenv`'s `config()` is modelled with its default options: a variable that
  is already set in the process environment is never overwritten.
* the SDK is a parameter (`Sdk`): four state-passing operations, each of which
  either returns an object or throws.
-/

namespace FirebaseConfig

/-! ## JSON values -/

/-- A JavaScript string value: its UTF-16 code units. -/
abbrev JsString := List Nat

/-- The number denoted by a JSON numeric literal, as an exact decimal
    `(-1)^negative * mantissa * 10^exponent`.  (JavaScript then rounds it to a
    binary64; the module never looks at it.)  The sign is kept apart because
    `-0` is a value of its own. -/
structure JsonNumber where
  negative : Bool
  mantissa : Nat
  exponent : Int
  deriving DecidableEq

/-- The result of `JSON.parse`.  The members of an object are kept in the order
    of the text; a property read sees the last member with the given key. -/
inductive Json where
  | null
  | bool (b : Bool)
  | number (n : JsonNumber)
  | string (s : JsString)
  | array (items : List Json)
  | object (members : List (JsString × Json))

/-- The `SyntaxError` thrown by `JSON.parse`. -/
inductive JsonError where
  | unexpectedToken (c : Char)
  | unexpectedEnd
  deriving DecidableEq

/-! ## `JSON.parse` -/

/-- What the string being read is for. -/
inductive StringRole where
  | value
  | key (members : List (JsString × Json))

/-- Where the scanner is in the grammar. -/
inductive Mode where
  | value
  | arrayOpen
  | arrayNext (items : List Json)
  | objectOpen
  | objectKey (members : List (JsString × Json))
  | objectColon (members : List (JsString × Json)) (key : JsString)
  | objectNext (members : List (JsString × Json))
  | chars (role : StringRole) (acc : JsString)
  | escape (role : StringRole) (acc : JsString)
  | hex (role : StringRole) (acc : JsString) (digits : List Nat)
  | literal (rest : List Nat) (v : Json)
  | minus
  | zero (neg : Bool)
  | int (neg : Bool) (m : Nat)
  | point (neg : Bool) (m : Nat)
  | frac (neg : Bool) (m : Nat) (scale : Nat)
  | expMark (neg : Bool) (m : Nat) (scale : Nat)
  | expSign (neg : Bool) (m : Nat) (scale : Nat) (eneg : Bool)
  | exp (neg : Bool) (m : Nat) (scale : Nat) (eneg : Bool) (e : Nat)
  | done (v : Json)

/-- An enclosing array or object whose current element is being read. -/
inductive Frame where
  | array (items : List Json)
  | member (members : List (JsString × Json)) (key : JsString)

structure Scanner where
  mode : Mode
  stack : List Frame

/-- JSON white space: tab, line feed, carriage return, space. -/
def isWhitespace (n : Nat) : Bool :=
  n == 9 || n == 10 || n == 13 || n == 32

/-- Value of a decimal digit. -/
def digitValue (n : Nat) : Option Nat :=
  if 48 ≤ n ∧ n ≤ 57 then some (n - 48) else none

/-- Value of a hexadecimal digit, either case. -/
def hexValue (n : Nat) : Option Nat :=
  if 48 ≤ n ∧ n ≤ 57 then some (n - 48)
  else if 65 ≤ n ∧ n ≤ 70 then some (n - 55)
  else if 97 ≤ n ∧ n ≤ 102 then some (n - 87)
  else none

/-- UTF-16 code units of a code point. -/
def codeUnits (n : Nat) : List Nat :=
  if n < 65536 then [n]
  else [55296 + (n - 65536) / 1024, 56320 + (n - 65536) % 1024]

/-- UTF-16 code units of a text. -/
def utf16 (s : String) : JsString :=
  s.toList.flatMap fun c => codeUnits c.toNat

def mkNumber (neg : Bool) (m scale : Nat) (eneg : Bool) (e : Nat) : JsonNumber :=
  { negative := neg
    mantissa := m
    exponent := (if eneg then -(e : Int) else (e : Int)) - (scale : Int) }

/-- A value is complete: hand it to the enclosing array or object. -/
def complete (v : Json) : List Frame → Scanner
  | [] => ⟨.done v, []⟩
  | .array items :: rest => ⟨.arrayNext (items ++ [v]), rest⟩
  | .member members key :: rest => ⟨.objectNext (members ++ [(key, v)]), rest⟩

/-- A string is complete. -/
def completeString (role : StringRole) (s : JsString) (stack : List Frame) : Scanner :=
  match role with
  | .value => complete (.string s) stack
  | .key members => ⟨.objectColon members s, stack⟩

/-- First character of a value (white space already skipped). -/
def startValue (c : Char) (stack : List Frame) : Except JsonError Scanner :=
  let n := c.toNat
  if n = 123 then .ok ⟨.objectOpen, stack⟩
  else if n = 91 then .ok ⟨.arrayOpen, stack⟩
  else if n = 34 then .ok ⟨.chars .value [], stack⟩
  else if n = 45 then .ok ⟨.minus, stack⟩
  else if n = 48 then .ok ⟨.zero false, stack⟩
  else if n = 116 then .ok ⟨.literal [114, 117, 101] (.bool true), stack⟩
  else if n = 102 then .ok ⟨.literal [97, 108, 115, 101] (.bool false), stack⟩
  else if n = 110 then .ok ⟨.literal [117, 108, 108] .null, stack⟩
  else match digitValue n with
    | some d => .ok ⟨.int false d, stack⟩
    | none => .error (.unexpectedToken c)

/-- A character that follows a complete value. -/
def afterValue (sc : Scanner) (c : Char) : Except JsonError Scanner :=
  let n := c.toNat
  if isWhitespace n then .ok sc
  else match sc.mode with
    | .arrayNext items =>
        if n = 44 then .ok ⟨.value, .array items :: sc.stack⟩
        else if n = 93 then .ok (complete (.array items) sc.stack)
        else .error (.unexpectedToken c)
    | .objectNext members =>
        if n = 44 then .ok ⟨.objectKey members, sc.stack⟩
        else if n = 125 then .ok (complete (.object members) sc.stack)
        else .error (.unexpectedToken c)
    | _ => .error (.unexpectedToken c)

/-- One character of input. -/
def step (sc : Scanner) (c : Char) : Except JsonError Scanner :=
  let n := c.toNat
  let stack := sc.stack
  match sc.mode with
  | .value =>
      if isWhitespace n then .ok sc else startValue c stack
  | .arrayOpen =>
      if isWhitespace n then .ok sc
      else if n = 93 then .ok (complete (.array []) stack)
      else startValue c (.array [] :: stack)
  | .objectOpen =>
      if isWhitespace n then .ok sc
      else if n = 125 then .ok (complete (.object []) stack)
      else if n = 34 then .ok ⟨.chars (.key []) [], stack⟩
      else .error (.unexpectedToken c)
  | .objectKey members =>
      if isWhitespace n then .ok sc
      else if n = 34 then .ok ⟨.chars (.key members) [], stack⟩
      else .error (.unexpectedToken c)
  | .objectColon members key =>
      if isWhitespace n then .ok sc
      else if n = 58 then .ok ⟨.value, .member members key :: stack⟩
      else .error (.unexpectedToken c)
  | .arrayNext _ => afterValue sc c
  | .objectNext _ => afterValue sc c
  | .done _ => afterValue sc c
  | .chars role acc =>
      if n = 34 then .ok (completeString role acc stack)
      else if n = 92 then .ok ⟨.escape role acc, stack⟩
      else if n < 32 then .error (.unexpectedToken c)
      else .ok ⟨.chars role (acc ++ codeUnits n), stack⟩
  | .escape role acc =>
      if n = 34 ∨ n = 92 ∨ n = 47 then .ok ⟨.chars role (acc ++ [n]), stack⟩
      else if n = 98 then .ok ⟨.chars role (acc ++ [8]), stack⟩
      else if n = 102 then .ok ⟨.chars role (acc ++ [12]), stack⟩
      else if n = 110 then .ok ⟨.chars role (acc ++ [10]), stack⟩
      else if n = 114 then .ok ⟨.chars role (acc ++ [13]), stack⟩
      else if n = 116 then .ok ⟨.chars role (acc ++ [9]), stack⟩
      else if n = 117 then .ok ⟨.hex role acc [], stack⟩
      else .error (.unexpectedToken c)
  | .hex role acc digits =>
      match hexValue n with
      | none => .error (.unexpectedToken c)
      | some d =>
          if digits.length < 3 then .ok ⟨.hex role acc (digits ++ [d]), stack⟩
          else .ok ⟨.chars role (acc ++ [(digits ++ [d]).foldl (fun a x => 16 * a + x) 0]), stack⟩
  | .literal rest v =>
      match rest with
      | [] => .error (.unexpectedToken c)
      | [x] => if n = x then .ok (complete v stack) else .error (.unexpectedToken c)
      | x :: more => if n = x then .ok ⟨.literal more v, stack⟩ else .error (.unexpectedToken c)
  | .minus =>
      if n = 48 then .ok ⟨.zero true, stack⟩
      else match digitValue n with
        | some d => .ok ⟨.int true d, stack⟩
        | none => .error (.unexpectedToken c)
  | .zero neg =>
      if n = 46 then .ok ⟨.point neg 0, stack⟩
      else if n = 101 ∨ n = 69 then .ok ⟨.expMark neg 0 0, stack⟩
      else afterValue (complete (.number (mkNumber neg 0 0 false 0)) stack) c
  | .int neg m =>
      match digitValue n with
      | some d => .ok ⟨.int neg (10 * m + d), stack⟩
      | none =>
          if n = 46 then .ok ⟨.point neg m, stack⟩
          else if n = 101 ∨ n = 69 then .ok ⟨.expMark neg m 0, stack⟩
          else afterValue (complete (.number (mkNumber neg m 0 false 0)) stack) c
  | .point neg m =>
      match digitValue n with
      | some d => .ok ⟨.frac neg (10 * m + d) 1, stack⟩
      | none => .error (.unexpectedToken c)
  | .frac neg m scale =>
      match digitValue n with
      | some d => .ok ⟨.frac neg (10 * m + d) (scale + 1), stack⟩
      | none =>
          if n = 101 ∨ n = 69 then .ok ⟨.expMark neg m scale, stack⟩
          else afterValue (complete (.number (mkNumber neg m scale false 0)) stack) c
  | .expMark neg m scale =>
      if n = 43 then .ok ⟨.expSign neg m scale false, stack⟩
      else if n = 45 then .ok ⟨.expSign neg m scale true, stack⟩
      else match digitValue n with
        | some d => .ok ⟨.exp neg m scale false d, stack⟩
        | none => .error (.unexpectedToken c)
  | .expSign neg m scale eneg =>
      match digitValue n with
      | some d => .ok ⟨.exp neg m scale eneg d, stack⟩
      | none => .error (.unexpectedToken c)
  | .exp neg m scale eneg e =>
      match digitValue n with
      | some d => .ok ⟨.exp neg m scale eneg (10 * e + d), stack⟩
      | none => afterValue (complete (.number (mkNumber neg m scale eneg e)) stack) c

/-- End of input: the text must be exactly one complete value. -/
def finish (sc : Scanner) : Except JsonError Json :=
  match sc.stack, sc.mode with
  | [], .done v => .ok v
  | [], .zero neg => .ok (.number (mkNumber neg 0 0 false 0))
  | [], .int neg m => .ok (.number (mkNumber neg m 0 false 0))
  | [], .frac neg m scale => .ok (.number (mkNumber neg m scale false 0))
  | [], .exp neg m scale eneg e => .ok (.number (mkNumber neg m scale eneg e))
  | _, _ => .error .unexpectedEnd

/-- Feed the characters of the text to the scanner, then close. -/
def scan (sc : Scanner) : List Char → Except JsonError Json
  | [] => finish sc
  | c :: rest =>
      match step sc c with
      | .error e => .error e
      | .ok next => scan next rest

/-- `JSON.parse(text)` for a string `text`. -/
def jsonParse (text : String) : Except JsonError Json :=
  scan ⟨.value, []⟩ text.toList

/-! ## The process environment and `dotenv` -/

/-- A table of string variables, `process.env` or the assignments of a `.env`
    file: keys with their values, in order.  A read sees the first entry of a
    key; `assign` keeps one entry per key. -/
abbrev Env := List (String × String)

/-- The assignment `table[k] = v`: overwrite the entry of `k`, or add one. -/
def assign : Env → String → String → Env
  | [], k, v => [(k, v)]
  | (k0, v0) :: rest, k, v =>
      if k0 = k then (k, v) :: rest else (k0, v0) :: assign rest k v

/-- The object `dotenv` builds from the assignments of the `.env` file, read
    top to bottom: a later line for the same key replaces the earlier one. -/
def dotenvParse (file : Env) : Env :=
  file.foldl (fun o kv => assign o kv.1 kv.2) []

/-- The step of `dotenv` that copies the parsed file into `process.env` with the
    default options (no `override`): a key that `process.env` already has is
    left alone, every other key is added. -/
def dotenvPopulate (env parsed : Env) : Env :=
  parsed.foldl (fun e kv => if (e.lookup kv.1).isSome then e else assign e kv.1 kv.2) env

/-- The call `require('dotenv').config()`; `file` holds the assignments of the
    `.env` file, empty when there is no such file (`config` then changes
    nothing and does not throw). -/
def dotenvConfig (file env : Env) : Env :=
  dotenvPopulate env (dotenvParse file)

/-- The name of the variable the module reads. -/
def serviceAccountKey : String := "FIREBASE_SERVICE_ACCOUNT"

/-- The value of `process.env.FIREBASE_SERVICE_ACCOUNT` at the moment the module reads it,
    that is after `dotenv` has run; `none` is `undefined`. -/
def serviceAccountText (file env : Env) : Option String :=
  (dotenvConfig file env).lookup serviceAccountKey

/-- The string `JSON.parse` makes of its argument before reading it:
    `undefined` becomes the nine letters of its name. -/
def toStringJs : Option String → String
  | none => "undefined"
  | some s => s

/-- `JSON.parse(x)` for `x` a string or `undefined`. -/
def jsonParseArg (x : Option String) : Except JsonError Json :=
  jsonParse (toStringJs x)

/-! ## The SDK -/

/-- The values the module binds and exports: `undefined`, plain data (among
    them `null`, which is `json .null`), or an object of the SDK. -/
inductive Value (Obj : Type) where
  | undefined
  | json (v : Json)
  | object (o : Obj)

/-- Being `null` or `undefined`. -/
def Value.isNullish {Obj : Type} : Value Obj → Bool
  | .undefined => true
  | .json .null => true
  | _ => false

/-- An object literal: its properties in order. -/
abbrev ObjectLiteral (Obj : Type) := List (String × Value Obj)

/-- Reading a property of an object literal; a missing one is `undefined`. -/
def getProperty {Obj : Type} (o : ObjectLiteral Obj) (k : String) : Value Obj :=
  (o.lookup k).getD .undefined

/-- The part of `firebase-admin` the module uses.  `σ` is the SDK's process-wide
    state, `Obj` its objects, `Err` what it throws.  Every operation takes the
    state and gives the state it leaves behind together with the object it
    returns or the error it throws. -/
structure Sdk (σ Obj Err : Type) where
  /-- The value of `require("firebase-admin")`. -/
  admin : Obj
  /-- The function `admin.credential.cert`. -/
  cert : Json → σ → Except Err Obj × σ
  /-- The function `admin.initializeApp`. -/
  initializeApp : ObjectLiteral Obj → σ → Except Err Obj × σ
  /-- The function `admin.firestore`. -/
  firestore : σ → Except Err Obj × σ
  /-- The function `admin.auth`. -/
  auth : σ → Except Err Obj × σ

/-! ## The module body -/

/-- What aborts a load: the `SyntaxError` of `JSON.parse` or an error thrown by the SDK. -/
inductive Thrown (Err : Type) where
  | syntaxError (e : JsonError)
  | sdk (e : Err)

/-- A call the module makes, with its argument and its outcome. -/
inductive Event (Obj Err : Type) where
  | jsonParse (arg : Option String) (r : Except JsonError Json)
  | cert (arg : Json) (r : Except Err Obj)
  | initializeApp (arg : ObjectLiteral Obj) (r : Except Err Obj)
  | firestore (r : Except Err Obj)
  | auth (r : Except Err Obj)

/-- The function an event is a call of. -/
def Event.callee {Obj Err : Type} : Event Obj Err → String
  | .jsonParse _ _ => "JSON.parse"
  | .cert _ _ => "admin.credential.cert"
  | .initializeApp _ _ => "admin.initializeApp"
  | .firestore _ => "admin.firestore"
  | .auth _ => "admin.auth"

/-- The error of an SDK call that threw. -/
def Event.sdkError {Obj Err : Type} : Event Obj Err → Option Err
  | .cert _ (.error e) => some e
  | .initializeApp _ (.error e) => some e
  | .firestore (.error e) => some e
  | .auth (.error e) => some e
  | _ => none

/-- The state of the process that the module reads and writes. -/
structure Process (σ : Type) where
  env : Env
  sdk : σ

/-- One execution of the module body. -/
structure Outcome (σ Obj Err : Type) where
  /-- The value of `module.exports`, or what was thrown. -/
  result : Except (Thrown Err) (ObjectLiteral Obj)
  /-- The process state left behind. -/
  proc : Process σ
  /-- The calls made, in order. -/
  trace : List (Event Obj Err)

/-- The body of `firebaseConfig.js`, run in process state `p` with `.env` file `file`. -/
def loadModule {σ Obj Err : Type} (sdk : Sdk σ Obj Err) (file : Env) (p : Process σ) :
    Outcome σ Obj Err :=
  -- var admin = require("firebase-admin");
  let admin := sdk.admin
  -- require('dotenv').config();
  let env := dotenvConfig file p.env
  -- const serviceAccount = JSON.parse(process.env.FIREBASE_SERVICE_ACCOUNT);
  let arg := env.lookup serviceAccountKey
  match jsonParseArg arg with
  | .error e => ⟨.error (.syntaxError e), ⟨env, p.sdk⟩, [.jsonParse arg (.error e)]⟩
  | .ok serviceAccount =>
    let t0 : List (Event Obj Err) := [.jsonParse arg (.ok serviceAccount)]
    -- admin.initializeApp({ credential: admin.credential.cert(serviceAccount), });
    match sdk.cert serviceAccount p.sdk with
    | (.error e, s1) =>
        ⟨.error (.sdk e), ⟨env, s1⟩, t0 ++ [.cert serviceAccount (.error e)]⟩
    | (.ok credential, s1) =>
      let t1 := t0 ++ [.cert serviceAccount (.ok credential)]
      let options : ObjectLiteral Obj := [("credential", .object credential)]
      match sdk.initializeApp options s1 with
      | (.error e, s2) =>
          ⟨.error (.sdk e), ⟨env, s2⟩, t1 ++ [.initializeApp options (.error e)]⟩
      | (.ok app, s2) =>
        let t2 := t1 ++ [.initializeApp options (.ok app)]
        -- const db = admin.firestore();
        match sdk.firestore s2 with
        | (.error e, s3) => ⟨.error (.sdk e), ⟨env, s3⟩, t2 ++ [.firestore (.error e)]⟩
        | (.ok db, s3) =>
          let t3 := t2 ++ [.firestore (.ok db)]
          -- const adminAuth = admin.auth();
          match sdk.auth s3 with
          | (.error e, s4) => ⟨.error (.sdk e), ⟨env, s4⟩, t3 ++ [.auth (.error e)]⟩
          | (.ok adminAuth, s4) =>
            -- module.exports = { admin, db, adminAuth };
            ⟨.ok [("admin", .object admin), ("db", .object db), ("adminAuth", .object adminAuth)],
              ⟨env, s4⟩, t3 ++ [.auth (.ok adminAuth)]⟩

/-! ## A reference SDK

A small executable SDK with the documented behaviour of `firebase-admin` that
matters here: `cert` accepts only an object with non-empty string properties
`project_id`, `private_key` and `client_email`; `initializeApp` throws when the
default app exists already; `firestore` and `auth` need the default app. -/

inductive RefObj where
  | adminModule
  | credential (account : Json)
  | app
  | firestore
  | auth

inductive RefErr where
  | invalidCredential
  | duplicateApp
  | noApp
  deriving DecidableEq

/-- State of the reference SDK: the service account of the default app, if it exists. -/
structure RefState where
  defaultApp : Option Json

/-- Reading a property of a parsed object: the last member with that key. -/
def Json.member (k : JsString) : List (JsString × Json) → Option Json
  | [] => none
  | (k0, v) :: rest =>
      match Json.member k rest with
      | some w => some w
      | none => if k0 = k then some v else none

/-- Whether property `k` is a non-empty string. -/
def hasText (members : List (JsString × Json)) (k : String) : Bool :=
  match Json.member (utf16 k) members with
  | some (.string (_ :: _)) => true
  | _ => false

def refCert (v : Json) (s : RefState) : Except RefErr RefObj × RefState :=
  match v with
  | .object members =>
      if hasText members "project_id" && hasText members "private_key"
          && hasText members "client_email" then
        (.ok (.credential v), s)
      else (.error .invalidCredential, s)
  | _ => (.error .invalidCredential, s)

def refInitializeApp (options : ObjectLiteral RefObj) (s : RefState) :
    Except RefErr RefObj × RefState :=
  match s.defaultApp with
  | some _ => (.error .duplicateApp, s)
  | none =>
      match getProperty options "credential" with
      | .object (.credential account) => (.ok .app, ⟨some account⟩)
      | _ => (.error .invalidCredential, s)

def refFirestore (s : RefState) : Except RefErr RefObj × RefState :=
  match s.defaultApp with
  | some _ => (.ok .firestore, s)
  | none => (.error .noApp, s)

def refAuth (s : RefState) : Except RefErr RefObj × RefState :=
  match s.defaultApp with
  | some _ => (.ok .auth, s)
  | none => (.error .noApp, s)

def refSdk : Sdk RefState RefObj RefErr where
  admin := .adminModule
  cert := refCert
  initializeApp := refInitializeApp
  firestore := refFirestore
  auth := refAuth

/-- A process in which nothing has been initialised. -/
def freshProcess (env : Env) : Process RefState := ⟨env, ⟨none⟩⟩

/-- A well-formed service account, as JSON text. -/
def sampleAccount : String :=
  "\x7b\"project_id\":\"demo\",\"private_key\":\"k\",\"client_email\":\"a@b.c\"\x7d"

/-- The parsed form of `sampleAccount`. -/
def sampleAccountJson : Json :=
  .object [(utf16 "project_id", .string (utf16 "demo")),
    (utf16 "private_key", .string (utf16 "k")),
    (utf16 "client_email", .string (utf16 "a@b.c"))]

/-! ## Vocabulary of the statements -/

/-- The calls of `callee` in a trace. -/
def callsOf {Obj Err : Type} (callee : String) (trace : List (Event Obj Err)) :
    List (Event Obj Err) :=
  trace.filter fun ev => ev.callee == callee

/-- The SDK's rule that the default app is created once: `initialized` holds from the
    first `initializeApp` that returns, no call undoes it, and while it holds
    `initializeApp` throws `duplicate`.  A service account that `cert` has accepted is
    accepted again. -/
structure CreatesAppOnce {σ Obj Err : Type} (sdk : Sdk σ Obj Err) (initialized : σ → Prop)
    (duplicate : Err) : Prop where
  created : ∀ o s app s1, sdk.initializeApp o s = (.ok app, s1) → initialized s1
  kept_by_cert : ∀ v s, initialized s → initialized (sdk.cert v s).2
  kept_by_firestore : ∀ s, initialized s → initialized (sdk.firestore s).2
  kept_by_auth : ∀ s, initialized s → initialized (sdk.auth s).2
  rejected : ∀ o s, initialized s → (sdk.initializeApp o s).1 = .error duplicate
  accepted_again : ∀ v s c s1, sdk.cert v s = (.ok c, s1) →
    ∀ t, ∃ c1, (sdk.cert v t).1 = .ok c1

/-! ## What `dotenv` leaves in the environment -/

theorem lookup_cons_ite (k a b : String) (es : Env) :
    List.lookup k ((a, b) :: es) = if k = a then some b else es.lookup k := by
  by_cases h : k = a
  · subst h; simp [List.lookup]
  · have hb : (k == a) = false := by simpa using h
    simp [List.lookup, hb, h]

theorem lookup_assign (e : Env) (k v k1 : String) :
    (assign e k v).lookup k1 = if k1 = k then some v else e.lookup k1 := by
  induction e with
  | nil => simp [assign, lookup_cons_ite]
  | cons kv rest ih =>
      obtain ⟨k0, v0⟩ := kv
      by_cases h0 : k0 = k
      · subst h0
        simp only [assign, if_true, lookup_cons_ite]
        split <;> rfl
      · simp only [assign, h0, if_false, lookup_cons_ite, ih]
        by_cases h1 : k1 = k0
        · have : ¬ k1 = k := fun h => h0 (h1 ▸ h)
          simp [h1, h0]
        · simp [h1]

theorem lookup_dotenvPopulate (parsed env : Env) (k : String) :
    (dotenvPopulate env parsed).lookup k =
      match env.lookup k with
      | some v => some v
      | none => parsed.lookup k := by
  induction parsed generalizing env with
  | nil => cases h : env.lookup k <;> simp [dotenvPopulate, h]
  | cons kv rest ih =>
      obtain ⟨k0, v0⟩ := kv
      have hstep : dotenvPopulate env ((k0, v0) :: rest) =
          dotenvPopulate (if (env.lookup k0).isSome then env else assign env k0 v0) rest := rfl
      rw [hstep, ih, lookup_cons_ite]
      by_cases hs : (env.lookup k0).isSome
      · rw [if_pos hs]
        cases h : env.lookup k with
        | some v => rfl
        | none =>
            have hne : ¬ k = k0 := by
              intro hk; rw [hk] at h; rw [h] at hs; exact absurd hs (by simp)
            simp [hne]
      · rw [if_neg hs, lookup_assign]
        by_cases hk : k = k0
        · subst hk
          have : env.lookup k = none := by
            cases h : env.lookup k with
            | none => rfl
            | some v => rw [h] at hs; exact absurd rfl hs
          simp [this]
        · cases h : env.lookup k <;> simp [hk]

theorem serviceAccountText_of_env (file env : Env) (s : String)
    (h : env.lookup serviceAccountKey = some s) : serviceAccountText file env = some s := by
  simp [serviceAccountText, dotenvConfig, lookup_dotenvPopulate, h]

theorem serviceAccountText_of_file (file env : Env)
    (h : env.lookup serviceAccountKey = none) :
    serviceAccountText file env = (dotenvParse file).lookup serviceAccountKey := by
  simp [serviceAccountText, dotenvConfig, lookup_dotenvPopulate, h]

/-! ## The six ways a load can go -/

theorem load_parse_error {σ Obj Err : Type} (sdk : Sdk σ Obj Err)
    (file : Env) (p : Process σ) (e : JsonError)
    (h : jsonParseArg (serviceAccountText file p.env) = .error e) :
    loadModule sdk file p =
      ⟨.error (.syntaxError e), ⟨dotenvConfig file p.env, p.sdk⟩,
        [.jsonParse (serviceAccountText file p.env) (.error e)]⟩ := by
  unfold serviceAccountText at h
  simp only [loadModule, serviceAccountText, h]

theorem load_cert_error {σ Obj Err : Type} (sdk : Sdk σ Obj Err)
    (file : Env) (p : Process σ) (v : Json)
    (e : Err) (s1 : σ)
    (hv : jsonParseArg (serviceAccountText file p.env) = .ok v)
    (hc : sdk.cert v p.sdk = (.error e, s1)) :
    loadModule sdk file p =
      ⟨.error (.sdk e), ⟨dotenvConfig file p.env, s1⟩,
        [.jsonParse (serviceAccountText file p.env) (.ok v), .cert v (.error e)]⟩ := by
  unfold serviceAccountText at hv
  simp only [loadModule, serviceAccountText, hv, hc, List.cons_append, List.nil_append]

theorem load_init_error {σ Obj Err : Type} (sdk : Sdk σ Obj Err)
    (file : Env) (p : Process σ) (v : Json)
    (c : Obj) (e : Err) (s1 s2 : σ)
    (hv : jsonParseArg (serviceAccountText file p.env) = .ok v)
    (hc : sdk.cert v p.sdk = (.ok c, s1))
    (hi : sdk.initializeApp [("credential", .object c)] s1 = (.error e, s2)) :
    loadModule sdk file p =
      ⟨.error (.sdk e), ⟨dotenvConfig file p.env, s2⟩,
        [.jsonParse (serviceAccountText file p.env) (.ok v), .cert v (.ok c),
          .initializeApp [("credential", .object c)] (.error e)]⟩ := by
  unfold serviceAccountText at hv
  simp only [loadModule, serviceAccountText, hv, hc, hi, List.cons_append, List.nil_append]

theorem load_firestore_error {σ Obj Err : Type} (sdk : Sdk σ Obj Err)
    (file : Env) (p : Process σ) (v : Json)
    (c app : Obj) (e : Err) (s1 s2 s3 : σ)
    (hv : jsonParseArg (serviceAccountText file p.env) = .ok v)
    (hc : sdk.cert v p.sdk = (.ok c, s1))
    (hi : sdk.initializeApp [("credential", .object c)] s1 = (.ok app, s2))
    (hd : sdk.firestore s2 = (.error e, s3)) :
    loadModule sdk file p =
      ⟨.error (.sdk e), ⟨dotenvConfig file p.env, s3⟩,
        [.jsonParse (serviceAccountText file p.env) (.ok v), .cert v (.ok c),
          .initializeApp [("credential", .object c)] (.ok app), .firestore (.error e)]⟩ := by
  unfold serviceAccountText at hv
  simp only [loadModule, serviceAccountText, hv, hc, hi, hd, List.cons_append, List.nil_append]

theorem load_auth_error {σ Obj Err : Type} (sdk : Sdk σ Obj Err)
    (file : Env) (p : Process σ) (v : Json)
    (c app d : Obj) (e : Err) (s1 s2 s3 s4 : σ)
    (hv : jsonParseArg (serviceAccountText file p.env) = .ok v)
    (hc : sdk.cert v p.sdk = (.ok c, s1))
    (hi : sdk.initializeApp [("credential", .object c)] s1 = (.ok app, s2))
    (hd : sdk.firestore s2 = (.ok d, s3))
    (ha : sdk.auth s3 = (.error e, s4)) :
    loadModule sdk file p =
      ⟨.error (.sdk e), ⟨dotenvConfig file p.env, s4⟩,
        [.jsonParse (serviceAccountText file p.env) (.ok v), .cert v (.ok c),
          .initializeApp [("credential", .object c)] (.ok app), .firestore (.ok d),
          .auth (.error e)]⟩ := by
  unfold serviceAccountText at hv
  simp only [loadModule, serviceAccountText, hv, hc, hi, hd, ha, List.cons_append,
    List.nil_append]

theorem load_success {σ Obj Err : Type} (sdk : Sdk σ Obj Err)
    (file : Env) (p : Process σ) (v : Json)
    (c app d a : Obj) (s1 s2 s3 s4 : σ)
    (hv : jsonParseArg (serviceAccountText file p.env) = .ok v)
    (hc : sdk.cert v p.sdk = (.ok c, s1))
    (hi : sdk.initializeApp [("credential", .object c)] s1 = (.ok app, s2))
    (hd : sdk.firestore s2 = (.ok d, s3))
    (ha : sdk.auth s3 = (.ok a, s4)) :
    loadModule sdk file p =
      ⟨.ok [("admin", .object sdk.admin), ("db", .object d), ("adminAuth", .object a)],
        ⟨dotenvConfig file p.env, s4⟩,
        [.jsonParse (serviceAccountText file p.env) (.ok v), .cert v (.ok c),
          .initializeApp [("credential", .object c)] (.ok app), .firestore (.ok d),
          .auth (.ok a)]⟩ := by
  unfold serviceAccountText at hv
  simp only [loadModule, serviceAccountText, hv, hc, hi, hd, ha, List.cons_append,
    List.nil_append]

theorem jsonParseArg_undefined : jsonParseArg none = .error (.unexpectedToken 'u') := by rfl

/-- A load that returns went through all four SDK calls. -/
theorem load_ok_inv {σ Obj Err : Type} (sdk : Sdk σ Obj Err) (file : Env) (p : Process σ)
    (ex : ObjectLiteral Obj) (h : (loadModule sdk file p).result = .ok ex) :
    ∃ s v c app d a s1 s2 s3 s4,
      serviceAccountText file p.env = some s ∧ jsonParse s = .ok v ∧
      sdk.cert v p.sdk = (.ok c, s1) ∧
      sdk.initializeApp [("credential", .object c)] s1 = (.ok app, s2) ∧
      sdk.firestore s2 = (.ok d, s3) ∧ sdk.auth s3 = (.ok a, s4) ∧
      ex = [("admin", .object sdk.admin), ("db", .object d), ("adminAuth", .object a)] := by
  cases hv : jsonParseArg (serviceAccountText file p.env) with
  | error e => rw [load_parse_error sdk file p e hv] at h; cases h
  | ok v =>
    cases ht : serviceAccountText file p.env with
    | none => rw [ht, jsonParseArg_undefined] at hv; cases hv
    | some s =>
      have hs : jsonParse s = .ok v := by rw [ht] at hv; exact hv
      cases hc : sdk.cert v p.sdk with
      | mk rc s1 =>
        cases rc with
        | error e => rw [load_cert_error sdk file p v e s1 hv hc] at h; cases h
        | ok c =>
          cases hi : sdk.initializeApp [("credential", .object c)] s1 with
          | mk ri s2 =>
            cases ri with
            | error e => rw [load_init_error sdk file p v c e s1 s2 hv hc hi] at h; cases h
            | ok app =>
              cases hd : sdk.firestore s2 with
              | mk rd s3 =>
                cases rd with
                | error e =>
                    rw [load_firestore_error sdk file p v c app e s1 s2 s3 hv hc hi hd] at h
                    cases h
                | ok d =>
                  cases ha : sdk.auth s3 with
                  | mk ra s4 =>
                    cases ra with
                    | error e =>
                        rw [load_auth_error sdk file p v c app d e s1 s2 s3 s4 hv hc hi hd ha] at h
                        cases h
                    | ok a =>
                        rw [load_success sdk file p v c app d a s1 s2 s3 s4 hv hc hi hd ha] at h
                        refine ⟨s, v, c, app, d, a, s1, s2, s3, s4, rfl, hs, hc, hi, hd, ha, ?_⟩
                        simp only [Except.ok.injEq] at h
                        exact h.symm

/-! ## C1 -/

/-- C1: when the value of `FIREBASE_SERVICE_ACCOUNT` is valid JSON and `cert`,
    `initializeApp`, `firestore` and `auth` all return, the load returns and each of
    the exports `admin`, `db` and `adminAuth` is neither `null` nor `undefined`. -/
theorem load_succeeds_with_exports {σ Obj Err : Type} (sdk : Sdk σ Obj Err)
    (file : Env) (p : Process σ)
    (s : String) (v : Json) (c app d a : Obj) (s1 s2 s3 s4 : σ)
    (hs : serviceAccountText file p.env = some s)
    (hv : jsonParse s = .ok v)
    (hc : sdk.cert v p.sdk = (.ok c, s1))
    (hi : sdk.initializeApp [("credential", .object c)] s1 = (.ok app, s2))
    (hd : sdk.firestore s2 = (.ok d, s3))
    (ha : sdk.auth s3 = (.ok a, s4)) :
    ∃ ex, (loadModule sdk file p).result = .ok ex ∧
      ∀ k ∈ ["admin", "db", "adminAuth"], (getProperty ex k).isNullish = false := by
  have hv1 : jsonParseArg (serviceAccountText file p.env) = .ok v := by rw [hs]; exact hv
  rw [load_success sdk file p v c app d a s1 s2 s3 s4 hv1 hc hi hd ha]
  refine ⟨_, rfl, ?_⟩
  intro k hk
  simp only [List.mem_cons, List.mem_singleton, List.not_mem_nil, or_false] at hk
  rcases hk with rfl | rfl | rfl <;> rfl

theorem load_succeeds_with_exports_witness :
    jsonParse sampleAccount = .ok sampleAccountJson ∧
    ∃ ex, (loadModule refSdk [] (freshProcess [(serviceAccountKey, sampleAccount)])).result
        = .ok ex ∧
      ∀ k ∈ ["admin", "db", "adminAuth"], (getProperty ex k).isNullish = false :=
  ⟨rfl, load_succeeds_with_exports refSdk [] (freshProcess [(serviceAccountKey, sampleAccount)])
    sampleAccount sampleAccountJson (.credential sampleAccountJson) .app .firestore .auth
    ⟨none⟩ ⟨some sampleAccountJson⟩ ⟨some sampleAccountJson⟩ ⟨some sampleAccountJson⟩
    rfl rfl rfl rfl rfl rfl⟩

/-! ## C2 -/

/-- C2: when `process.env.FIREBASE_SERVICE_ACCOUNT` is `undefined` after `dotenv` has
    run, the load throws the `SyntaxError` of `JSON.parse` (which reads the text
    `undefined`), produces no exports, and calls nothing of the SDK. -/
theorem missing_variable_throws {σ Obj Err : Type} (sdk : Sdk σ Obj Err)
    (file : Env) (p : Process σ)
    (h : serviceAccountText file p.env = none) :
    (loadModule sdk file p).result = .error (.syntaxError (.unexpectedToken 'u')) ∧
    (loadModule sdk file p).trace = [.jsonParse none (.error (.unexpectedToken 'u'))] ∧
    (loadModule sdk file p).proc.sdk = p.sdk := by
  have hv : jsonParseArg (serviceAccountText file p.env) = .error (.unexpectedToken 'u') := by
    rw [h]; exact jsonParseArg_undefined
  rw [load_parse_error sdk file p _ hv, h]
  exact ⟨rfl, rfl, rfl⟩

theorem missing_variable_throws_witness :
    serviceAccountText [("PORT", "3000")] [("HOME", "/root")] = none ∧
    (loadModule refSdk [("PORT", "3000")] (freshProcess [("HOME", "/root")])).result
      = .error (.syntaxError (.unexpectedToken 'u')) ∧
    (loadModule refSdk [("PORT", "3000")] (freshProcess [("HOME", "/root")])).trace
      = [.jsonParse none (.error (.unexpectedToken 'u'))] ∧
    (loadModule refSdk [("PORT", "3000")] (freshProcess [("HOME", "/root")])).proc.sdk
      = (freshProcess [("HOME", "/root")]).sdk :=
  ⟨rfl, missing_variable_throws refSdk [("PORT", "3000")] (freshProcess [("HOME", "/root")]) rfl⟩

/-! ## C3 -/

/-- C3: when the value of `FIREBASE_SERVICE_ACCOUNT` is a string that `JSON.parse`
    rejects, the load throws exactly the `SyntaxError` of `JSON.parse`; the empty
    string is such a value. -/
theorem malformed_json_throws {σ Obj Err : Type} (sdk : Sdk σ Obj Err)
    (file : Env) (p : Process σ) :
    (∀ s e, serviceAccountText file p.env = some s → jsonParse s = .error e →
      (loadModule sdk file p).result = .error (.syntaxError e)) ∧
    (serviceAccountText file p.env = some "" →
      (loadModule sdk file p).result = .error (.syntaxError .unexpectedEnd)) := by
  have key : ∀ s e, serviceAccountText file p.env = some s → jsonParse s = .error e →
      (loadModule sdk file p).result = .error (.syntaxError e) := by
    intro s e hs he
    have hv : jsonParseArg (serviceAccountText file p.env) = .error e := by rw [hs]; exact he
    rw [load_parse_error sdk file p e hv]
  exact ⟨key, fun hs => key "" .unexpectedEnd hs rfl⟩

theorem malformed_json_throws_witness :
    serviceAccountText [] [(serviceAccountKey, "\x7bproject_id: demo\x7d")]
      = some "\x7bproject_id: demo\x7d" ∧
    jsonParse "\x7bproject_id: demo\x7d" = .error (.unexpectedToken 'p') ∧
    (loadModule refSdk [] (freshProcess [(serviceAccountKey, "\x7bproject_id: demo\x7d")])).result
      = .error (.syntaxError (.unexpectedToken 'p')) ∧
    (loadModule refSdk [] (freshProcess [(serviceAccountKey, "")])).result
      = .error (.syntaxError .unexpectedEnd) :=
  ⟨rfl, rfl,
    (malformed_json_throws refSdk [] (freshProcess [(serviceAccountKey, "\x7bproject_id: demo\x7d")])).1
      _ _ rfl rfl,
    (malformed_json_throws refSdk [] (freshProcess [(serviceAccountKey, "")])).2 rfl⟩

/-! ## C4 -/

/-- C4, as stated, fails: the text `{}` is valid JSON, `cert` throws on the empty
    object, and the load ends without any call of `initializeApp`. -/
theorem initializeApp_skipped_when_cert_throws :
    serviceAccountText [] [(serviceAccountKey, "\x7b\x7d")] = some "\x7b\x7d" ∧
    jsonParse "\x7b\x7d" = .ok (.object []) ∧
    (loadModule refSdk [] (freshProcess [(serviceAccountKey, "\x7b\x7d")])).trace
      = [.jsonParse (some "\x7b\x7d") (.ok (.object [])),
          .cert (.object []) (.error .invalidCredential)] ∧
    (callsOf "admin.initializeApp"
      (loadModule refSdk [] (freshProcess [(serviceAccountKey, "\x7b\x7d")])).trace).length
      ≠ 1 := by
  refine ⟨rfl, rfl, rfl, ?_⟩
  decide

/-- C4, amended: when the value of `FIREBASE_SERVICE_ACCOUNT` parses to `v` and
    `admin.credential.cert(v)` returns a credential `c`, the load calls `cert` once, on
    the very `v` that `JSON.parse` returned, and calls `initializeApp` exactly once, with
    an options object whose only property is `credential`, bound to `c`. -/
theorem initializeApp_called_once {σ Obj Err : Type} (sdk : Sdk σ Obj Err)
    (file : Env) (p : Process σ)
    (s : String) (v : Json) (c : Obj) (s1 : σ)
    (hs : serviceAccountText file p.env = some s)
    (hv : jsonParse s = .ok v)
    (hc : sdk.cert v p.sdk = (.ok c, s1)) :
    callsOf "JSON.parse" (loadModule sdk file p).trace = [.jsonParse (some s) (.ok v)] ∧
    callsOf "admin.credential.cert" (loadModule sdk file p).trace = [.cert v (.ok c)] ∧
    ∃ r, callsOf "admin.initializeApp" (loadModule sdk file p).trace
      = [.initializeApp [("credential", .object c)] r] := by
  have hv1 : jsonParseArg (serviceAccountText file p.env) = .ok v := by rw [hs]; exact hv
  cases hi : sdk.initializeApp [("credential", .object c)] s1 with
  | mk ri s2 =>
    cases ri with
    | error e =>
        rw [load_init_error sdk file p v c e s1 s2 hv1 hc hi, hs]
        exact ⟨by rfl, by rfl, _, by rfl⟩
    | ok app =>
      cases hd : sdk.firestore s2 with
      | mk rd s3 =>
        cases rd with
        | error e =>
            rw [load_firestore_error sdk file p v c app e s1 s2 s3 hv1 hc hi hd, hs]
            exact ⟨by rfl, by rfl, _, by rfl⟩
        | ok d =>
          cases ha : sdk.auth s3 with
          | mk ra s4 =>
            cases ra with
            | error e =>
                rw [load_auth_error sdk file p v c app d e s1 s2 s3 s4 hv1 hc hi hd ha, hs]
                exact ⟨by rfl, by rfl, _, by rfl⟩
            | ok a =>
                rw [load_success sdk file p v c app d a s1 s2 s3 s4 hv1 hc hi hd ha, hs]
                exact ⟨by rfl, by rfl, _, by rfl⟩

theorem initializeApp_called_once_witness :
    serviceAccountText [] [(serviceAccountKey, sampleAccount)] = some sampleAccount ∧
    jsonParse sampleAccount = .ok sampleAccountJson ∧
    callsOf "JSON.parse"
        (loadModule refSdk [] (freshProcess [(serviceAccountKey, sampleAccount)])).trace
      = [.jsonParse (some sampleAccount) (.ok sampleAccountJson)] ∧
    callsOf "admin.credential.cert"
        (loadModule refSdk [] (freshProcess [(serviceAccountKey, sampleAccount)])).trace
      = [.cert sampleAccountJson (.ok (.credential sampleAccountJson))] ∧
    ∃ r, callsOf "admin.initializeApp"
        (loadModule refSdk [] (freshProcess [(serviceAccountKey, sampleAccount)])).trace
      = [.initializeApp [("credential", .object (.credential sampleAccountJson))] r] :=
  ⟨rfl, rfl, initializeApp_called_once refSdk [] (freshProcess [(serviceAccountKey, sampleAccount)])
    sampleAccount sampleAccountJson (.credential sampleAccountJson) ⟨none⟩ rfl rfl rfl⟩

/-! ## C5 -/

/-- C5: when the value of `FIREBASE_SERVICE_ACCOUNT` is valid JSON and `cert` or
    `initializeApp` throws `e`, the load throws that same `e`, produces no exports, and
    never calls `admin.firestore` or `admin.auth`. -/
theorem sdk_rejection_propagates {σ Obj Err : Type} (sdk : Sdk σ Obj Err)
    (file : Env) (p : Process σ)
    (s : String) (v : Json) (e : Err)
    (hs : serviceAccountText file p.env = some s)
    (hv : jsonParse s = .ok v)
    (hrej : (∃ s1, sdk.cert v p.sdk = (.error e, s1)) ∨
      (∃ c s1 s2, sdk.cert v p.sdk = (.ok c, s1) ∧
        sdk.initializeApp [("credential", .object c)] s1 = (.error e, s2))) :
    (loadModule sdk file p).result = .error (.sdk e) ∧
    callsOf "admin.firestore" (loadModule sdk file p).trace = [] ∧
    callsOf "admin.auth" (loadModule sdk file p).trace = [] := by
  have hv1 : jsonParseArg (serviceAccountText file p.env) = .ok v := by rw [hs]; exact hv
  rcases hrej with ⟨s1, hc⟩ | ⟨c, s1, s2, hc, hi⟩
  · rw [load_cert_error sdk file p v e s1 hv1 hc]
    exact ⟨rfl, by rfl, by rfl⟩
  · rw [load_init_error sdk file p v c e s1 s2 hv1 hc hi]
    exact ⟨rfl, by rfl, by rfl⟩

theorem sdk_rejection_propagates_witness :
    serviceAccountText [] [(serviceAccountKey, "[1, 2]")] = some "[1, 2]" ∧
    (∃ v, jsonParse "[1, 2]" = .ok v ∧
      ∃ s1, refSdk.cert v (freshProcess [(serviceAccountKey, "[1, 2]")]).sdk
        = (.error .invalidCredential, s1)) ∧
    (loadModule refSdk [] (freshProcess [(serviceAccountKey, "[1, 2]")])).result
      = .error (.sdk .invalidCredential) ∧
    callsOf "admin.firestore"
      (loadModule refSdk [] (freshProcess [(serviceAccountKey, "[1, 2]")])).trace = [] ∧
    callsOf "admin.auth"
      (loadModule refSdk [] (freshProcess [(serviceAccountKey, "[1, 2]")])).trace = [] :=
  ⟨rfl, ⟨_, rfl, _, rfl⟩,
    sdk_rejection_propagates refSdk [] (freshProcess [(serviceAccountKey, "[1, 2]")])
      "[1, 2]" _ .invalidCredential rfl rfl (Or.inl ⟨_, rfl⟩)⟩

/-! ## C6 -/

/-- C6: a load that returns exports exactly the keys `admin`, `db`, `adminAuth`:
    `admin` is the SDK handle, `db` is what `admin.firestore()` returned and
    `adminAuth` what `admin.auth()` returned, both called after `initializeApp` had
    returned, on the state it left; the parsed service account is not exported. -/
theorem exports_of_successful_load {σ Obj Err : Type} (sdk : Sdk σ Obj Err)
    (file : Env) (p : Process σ)
    (ex : ObjectLiteral Obj) (h : (loadModule sdk file p).result = .ok ex) :
    ∃ s v c app d a s1 s2 s3 s4,
      serviceAccountText file p.env = some s ∧ jsonParse s = .ok v ∧
      sdk.cert v p.sdk = (.ok c, s1) ∧
      sdk.initializeApp [("credential", .object c)] s1 = (.ok app, s2) ∧
      sdk.firestore s2 = (.ok d, s3) ∧ sdk.auth s3 = (.ok a, s4) ∧
      ex = [("admin", .object sdk.admin), ("db", .object d), ("adminAuth", .object a)] ∧
      ex.map Prod.fst = ["admin", "db", "adminAuth"] ∧
      (loadModule sdk file p).trace =
        [.jsonParse (some s) (.ok v), .cert v (.ok c),
          .initializeApp [("credential", .object c)] (.ok app),
          .firestore (.ok d), .auth (.ok a)] ∧
      ∀ kv ∈ ex, kv.2 ≠ .json v := by
  obtain ⟨s, v, c, app, d, a, s1, s2, s3, s4, hs, hv, hc, hi, hd, ha, hex⟩ :=
    load_ok_inv sdk file p ex h
  have hv1 : jsonParseArg (serviceAccountText file p.env) = .ok v := by rw [hs]; exact hv
  refine ⟨s, v, c, app, d, a, s1, s2, s3, s4, hs, hv, hc, hi, hd, ha, hex, ?_, ?_, ?_⟩
  · rw [hex]; rfl
  · rw [load_success sdk file p v c app d a s1 s2 s3 s4 hv1 hc hi hd ha, hs]
  · intro kv hkv
    rw [hex] at hkv
    simp only [List.mem_cons, List.mem_singleton, List.not_mem_nil, or_false] at hkv
    rcases hkv with rfl | rfl | rfl <;> exact fun hne => Value.noConfusion hne

theorem exports_of_successful_load_witness :
    (loadModule refSdk [] (freshProcess [(serviceAccountKey, sampleAccount)])).result
      = .ok [("admin", .object .adminModule), ("db", .object .firestore),
          ("adminAuth", .object .auth)] ∧
    ∃ s v c r d a s1 s2 s3 s4,
      serviceAccountText [] (freshProcess [(serviceAccountKey, sampleAccount)]).env = some s ∧
      jsonParse s = .ok v ∧
      refSdk.cert v (freshProcess [(serviceAccountKey, sampleAccount)]).sdk = (.ok c, s1) ∧
      refSdk.initializeApp [("credential", .object c)] s1 = (.ok r, s2) ∧
      refSdk.firestore s2 = (.ok d, s3) ∧ refSdk.auth s3 = (.ok a, s4) ∧
      [("admin", Value.object RefObj.adminModule), ("db", .object .firestore),
          ("adminAuth", .object .auth)]
        = [("admin", .object refSdk.admin), ("db", .object d), ("adminAuth", .object a)] ∧
      List.map Prod.fst [("admin", Value.object RefObj.adminModule), ("db", .object .firestore),
          ("adminAuth", .object .auth)] = ["admin", "db", "adminAuth"] ∧
      (loadModule refSdk [] (freshProcess [(serviceAccountKey, sampleAccount)])).trace =
        [.jsonParse (some s) (.ok v), .cert v (.ok c),
          .initializeApp [("credential", .object c)] (.ok r),
          .firestore (.ok d), .auth (.ok a)] ∧
      ∀ kv ∈ [("admin", Value.object RefObj.adminModule), ("db", .object .firestore),
          ("adminAuth", .object .auth)], kv.2 ≠ .json v :=
  ⟨rfl, exports_of_successful_load refSdk [] (freshProcess [(serviceAccountKey, sampleAccount)])
    _ rfl⟩

/-! ## C7 -/

theorem refSdk_createsAppOnce :
    CreatesAppOnce refSdk (fun s => s.defaultApp.isSome = true) .duplicateApp where
  created := by
    intro o s r s1 h
    simp only [refSdk, refInitializeApp] at h
    split at h
    · cases h
    · split at h
      · cases h; rfl
      · cases h
  kept_by_cert := by
    intro v s h
    simp only [refSdk, refCert]
    split
    · split <;> exact h
    · exact h
  kept_by_firestore := by
    intro s h
    simp only [refSdk, refFirestore]
    split <;> exact h
  kept_by_auth := by
    intro s h
    simp only [refSdk, refAuth]
    split <;> exact h
  rejected := by
    intro o s h
    simp only [refSdk, refInitializeApp]
    split
    · rfl
    · next hn => rw [hn] at h; cases h
  accepted_again := by
    intro v s c s1 h t
    simp only [refSdk, refCert] at h ⊢
    split at h
    · next members =>
      split at h
      · next hm => exact ⟨.credential (.object members), by simp only [hm, if_true]⟩
      · cases h
    · cases h

/-- C7: the module has no guard against a second initialisation.  With an SDK that
    creates its default app once, executing the body again in the process state left by a
    load that returned calls `cert` and then `initializeApp` again, and the load throws the
    SDK's duplicate-initialisation error without reaching `firestore` or `auth`. -/
theorem second_load_throws {σ Obj Err : Type} (sdk : Sdk σ Obj Err)
    (initialized : σ → Prop) (duplicate : Err)
    (hsdk : CreatesAppOnce sdk initialized duplicate) (file file2 : Env) (p : Process σ)
    (ex : ObjectLiteral Obj) (h : (loadModule sdk file p).result = .ok ex) :
    (loadModule sdk file2 (loadModule sdk file p).proc).result = .error (.sdk duplicate) ∧
    ∃ s v c,
      (loadModule sdk file2 (loadModule sdk file p).proc).trace =
        [.jsonParse (some s) (.ok v), .cert v (.ok c),
          .initializeApp [("credential", .object c)] (.error duplicate)] := by
  obtain ⟨s, v, c, app, d, a, s1, s2, s3, s4, hs, hv, hc, hi, hd, ha, -⟩ :=
    load_ok_inv sdk file p ex h
  have hv1 : jsonParseArg (serviceAccountText file p.env) = .ok v := by rw [hs]; exact hv
  rw [load_success sdk file p v c app d a s1 s2 s3 s4 hv1 hc hi hd ha]
  have hs2 : serviceAccountText file2 (dotenvConfig file p.env) = some s :=
    serviceAccountText_of_env file2 _ s hs
  have hv2 : jsonParseArg (serviceAccountText file2
      (Process.mk (dotenvConfig file p.env) s4).env) = .ok v := by
    show jsonParseArg (serviceAccountText file2 (dotenvConfig file p.env)) = .ok v
    rw [hs2]; exact hv
  have h2 : initialized s2 := hsdk.created _ _ _ _ hi
  have h3 : initialized s3 := by
    have := hsdk.kept_by_firestore s2 h2
    rwa [hd] at this
  have h4 : initialized s4 := by
    have := hsdk.kept_by_auth s3 h3
    rwa [ha] at this
  obtain ⟨c1, hc1⟩ := hsdk.accepted_again v p.sdk c s1 hc s4
  cases hcc : sdk.cert v s4 with
  | mk rc t1 =>
    rw [hcc] at hc1
    simp only at hc1
    subst hc1
    have ht1 : initialized t1 := by
      have := hsdk.kept_by_cert v s4 h4
      rwa [hcc] at this
    have hrej := hsdk.rejected [("credential", .object c1)] t1 ht1
    cases hii : sdk.initializeApp [("credential", .object c1)] t1 with
    | mk ri t2 =>
      rw [hii] at hrej
      simp only at hrej
      subst hrej
      rw [load_init_error sdk file2 ⟨dotenvConfig file p.env, s4⟩ v c1 duplicate t1 t2 hv2 hcc hii]
      refine ⟨rfl, s, v, c1, ?_⟩
      show [Event.jsonParse (serviceAccountText file2 (dotenvConfig file p.env)) (.ok v), _, _] = _
      rw [hs2]

theorem second_load_throws_witness :
    (loadModule refSdk [] (freshProcess [(serviceAccountKey, sampleAccount)])).result
      = .ok [("admin", .object .adminModule), ("db", .object .firestore),
          ("adminAuth", .object .auth)] ∧
    (loadModule refSdk []
        (loadModule refSdk [] (freshProcess [(serviceAccountKey, sampleAccount)])).proc).result
      = .error (.sdk .duplicateApp) ∧
    ∃ s v c,
      (loadModule refSdk []
        (loadModule refSdk [] (freshProcess [(serviceAccountKey, sampleAccount)])).proc).trace =
        [.jsonParse (some s) (.ok v), .cert v (.ok c),
          .initializeApp [("credential", .object c)] (.error .duplicateApp)] :=
  ⟨rfl, second_load_throws refSdk _ .duplicateApp refSdk_createsAppOnce [] []
    (freshProcess [(serviceAccountKey, sampleAccount)]) _ rfl⟩

/-! ## C8 -/

/-- C8: the module adds no validation of its own.  Whatever valid JSON the variable
    holds, object or not, the load throws exactly when one of the SDK calls in its trace
    threw, and what it throws is then that SDK error. -/
theorem load_fails_iff_sdk_throws {σ Obj Err : Type} (sdk : Sdk σ Obj Err)
    (file : Env) (p : Process σ)
    (s : String) (v : Json)
    (hs : serviceAccountText file p.env = some s)
    (hv : jsonParse s = .ok v) :
    ((∃ t, (loadModule sdk file p).result = .error t) ↔
      ∃ ev ∈ (loadModule sdk file p).trace, ∃ e, ev.sdkError = some e) ∧
    (∀ t, (loadModule sdk file p).result = .error t →
      ∃ e, t = .sdk e ∧ ∃ ev ∈ (loadModule sdk file p).trace, ev.sdkError = some e) := by
  have hv1 : jsonParseArg (serviceAccountText file p.env) = .ok v := by rw [hs]; exact hv
  cases hc : sdk.cert v p.sdk with
  | mk rc s1 =>
    cases rc with
    | error e =>
        rw [load_cert_error sdk file p v e s1 hv1 hc]
        refine ⟨⟨fun _ => ⟨.cert v (.error e), by simp, e, rfl⟩, fun _ => ⟨_, rfl⟩⟩, ?_⟩
        intro t ht
        cases ht
        exact ⟨e, rfl, .cert v (.error e), by simp, rfl⟩
    | ok c =>
      cases hi : sdk.initializeApp [("credential", .object c)] s1 with
      | mk ri s2 =>
        cases ri with
        | error e =>
            rw [load_init_error sdk file p v c e s1 s2 hv1 hc hi]
            refine ⟨⟨fun _ => ⟨.initializeApp [("credential", .object c)] (.error e),
              by simp, e, rfl⟩, fun _ => ⟨_, rfl⟩⟩, ?_⟩
            intro t ht
            cases ht
            exact ⟨e, rfl, .initializeApp [("credential", .object c)] (.error e), by simp, rfl⟩
        | ok app =>
          cases hd : sdk.firestore s2 with
          | mk rd s3 =>
            cases rd with
            | error e =>
                rw [load_firestore_error sdk file p v c app e s1 s2 s3 hv1 hc hi hd]
                refine ⟨⟨fun _ => ⟨.firestore (.error e), by simp, e, rfl⟩,
                  fun _ => ⟨_, rfl⟩⟩, ?_⟩
                intro t ht
                cases ht
                exact ⟨e, rfl, .firestore (.error e), by simp, rfl⟩
            | ok d =>
              cases ha : sdk.auth s3 with
              | mk ra s4 =>
                cases ra with
                | error e =>
                    rw [load_auth_error sdk file p v c app d e s1 s2 s3 s4 hv1 hc hi hd ha]
                    refine ⟨⟨fun _ => ⟨.auth (.error e), by simp, e, rfl⟩,
                      fun _ => ⟨_, rfl⟩⟩, ?_⟩
                    intro t ht
                    cases ht
                    exact ⟨e, rfl, .auth (.error e), by simp, rfl⟩
                | ok a =>
                    rw [load_success sdk file p v c app d a s1 s2 s3 s4 hv1 hc hi hd ha]
                    refine ⟨⟨fun ⟨t, ht⟩ => (by cases ht), ?_⟩, fun t ht => (by cases ht)⟩
                    rintro ⟨ev, hev, e, he⟩
                    exfalso
                    simp only [List.mem_cons, List.mem_singleton, List.not_mem_nil,
                      or_false] at hev
                    rcases hev with rfl | rfl | rfl | rfl | rfl <;> cases he

theorem load_fails_iff_sdk_throws_witness :
    serviceAccountText [] (freshProcess [(serviceAccountKey, "null")]).env = some "null" ∧
    jsonParse "null" = .ok .null ∧
    ((∃ t, (loadModule refSdk [] (freshProcess [(serviceAccountKey, "null")])).result
        = .error t) ↔
      ∃ ev ∈ (loadModule refSdk [] (freshProcess [(serviceAccountKey, "null")])).trace,
        ∃ e, ev.sdkError = some e) ∧
    (∀ t, (loadModule refSdk [] (freshProcess [(serviceAccountKey, "null")])).result
        = .error t →
      ∃ e, t = .sdk e ∧
        ∃ ev ∈ (loadModule refSdk [] (freshProcess [(serviceAccountKey, "null")])).trace,
          ev.sdkError = some e) :=
  ⟨rfl, rfl, load_fails_iff_sdk_throws refSdk [] (freshProcess [(serviceAccountKey, "null")])
    "null" .null rfl rfl⟩

/-! ## C9 -/

/-- C9: when `JSON.parse` throws on the value of `FIREBASE_SERVICE_ACCOUNT` (the variable
    missing or its text malformed), `JSON.parse` is the only call the load makes: none of
    `cert`, `initializeApp`, `firestore`, `auth` is called, and the SDK state is the one the
    load started from. -/
theorem parse_failure_leaves_sdk_untouched {σ Obj Err : Type} (sdk : Sdk σ Obj Err) (file : Env)
    (p : Process σ) (e : JsonError)
    (h : jsonParseArg (serviceAccountText file p.env) = .error e) :
    (loadModule sdk file p).result = .error (.syntaxError e) ∧
    (loadModule sdk file p).trace = [.jsonParse (serviceAccountText file p.env) (.error e)] ∧
    (∀ f ∈ ["admin.credential.cert", "admin.initializeApp", "admin.firestore", "admin.auth"],
      callsOf f (loadModule sdk file p).trace = []) ∧
    (loadModule sdk file p).proc.sdk = p.sdk := by
  rw [load_parse_error sdk file p e h]
  refine ⟨rfl, rfl, ?_, rfl⟩
  intro f hf
  simp only [List.mem_cons, List.mem_singleton, List.not_mem_nil, or_false] at hf
  rcases hf with rfl | rfl | rfl | rfl <;> rfl

theorem parse_failure_leaves_sdk_untouched_witness :
    jsonParseArg (serviceAccountText [] (Process.mk [(serviceAccountKey, "[1,")]
      (RefState.mk (some .null))).env) = .error .unexpectedEnd ∧
    (loadModule refSdk [] ⟨[(serviceAccountKey, "[1,")], ⟨some .null⟩⟩).result
      = .error (.syntaxError .unexpectedEnd) ∧
    (loadModule refSdk [] ⟨[(serviceAccountKey, "[1,")], ⟨some .null⟩⟩).trace
      = [.jsonParse (serviceAccountText [] (Process.mk [(serviceAccountKey, "[1,")]
          (RefState.mk (some .null))).env) (.error .unexpectedEnd)] ∧
    (∀ f ∈ ["admin.credential.cert", "admin.initializeApp", "admin.firestore", "admin.auth"],
      callsOf f (loadModule refSdk [] ⟨[(serviceAccountKey, "[1,")], ⟨some .null⟩⟩).trace
        = []) ∧
    (loadModule refSdk [] ⟨[(serviceAccountKey, "[1,")], ⟨some .null⟩⟩).proc.sdk
      = (Process.mk [(serviceAccountKey, "[1,")] (RefState.mk (some .null))).sdk :=
  ⟨rfl, parse_failure_leaves_sdk_untouched refSdk []
    ⟨[(serviceAccountKey, "[1,")], ⟨some .null⟩⟩ .unexpectedEnd rfl⟩

/-! ## C10 -/

/-- C10: the text handed to `JSON.parse` is the value of the variable after
    `dotenv` has run.  A variable absent from the process environment and assigned in the
    `.env` file is parsed with the file's value, and the load returns when that value is
    valid JSON that the SDK accepts; a variable already set in the process environment is
    parsed with that value, whatever the file says. -/
theorem parses_value_after_dotenv {σ Obj Err : Type} (sdk : Sdk σ Obj Err)
    (file : Env) (p : Process σ)
    (s : String) :
    (p.env.lookup serviceAccountKey = none →
      (dotenvParse file).lookup serviceAccountKey = some s →
      (loadModule sdk file p).trace.head? = some (.jsonParse (some s) (jsonParse s)) ∧
      ∀ v c app d a s1 s2 s3 s4, jsonParse s = .ok v →
        sdk.cert v p.sdk = (.ok c, s1) →
        sdk.initializeApp [("credential", .object c)] s1 = (.ok app, s2) →
        sdk.firestore s2 = (.ok d, s3) → sdk.auth s3 = (.ok a, s4) →
        (loadModule sdk file p).result
          = .ok [("admin", .object sdk.admin), ("db", .object d), ("adminAuth", .object a)]) ∧
    (p.env.lookup serviceAccountKey = some s →
      (loadModule sdk file p).trace.head? = some (.jsonParse (some s) (jsonParse s))) := by
  have head : serviceAccountText file p.env = some s →
      (loadModule sdk file p).trace.head? = some (.jsonParse (some s) (jsonParse s)) := by
    intro hs
    have harg : (dotenvConfig file p.env).lookup serviceAccountKey = some s := hs
    have hj : jsonParseArg (some s) = jsonParse s := rfl
    simp only [loadModule, harg, hj]
    cases jsonParse s with
    | error e => rfl
    | ok v =>
      simp only
      cases sdk.cert v p.sdk with
      | mk rc s1 =>
        cases rc with
        | error e => rfl
        | ok c =>
          simp only
          cases sdk.initializeApp [("credential", .object c)] s1 with
          | mk ri s2 =>
            cases ri with
            | error e => rfl
            | ok app =>
              simp only
              cases sdk.firestore s2 with
              | mk rd s3 =>
                cases rd with
                | error e => rfl
                | ok d =>
                  simp only
                  cases sdk.auth s3 with
                  | mk ra s4 =>
                    cases ra with
                    | error e => rfl
                    | ok a => rfl
  refine ⟨fun habs hfile => ?_, fun hset => head (serviceAccountText_of_env file p.env s hset)⟩
  have hs : serviceAccountText file p.env = some s := by
    rw [serviceAccountText_of_file file p.env habs]; exact hfile
  refine ⟨head hs, ?_⟩
  intro v c app d a s1 s2 s3 s4 hv hc hi hd ha
  have hv1 : jsonParseArg (serviceAccountText file p.env) = .ok v := by rw [hs]; exact hv
  rw [load_success sdk file p v c app d a s1 s2 s3 s4 hv1 hc hi hd ha]

theorem parses_value_after_dotenv_witness :
    (List.lookup serviceAccountKey (freshProcess [("HOME", "/root")]).env = none ∧
      (dotenvParse [("PORT", "3000"), (serviceAccountKey, sampleAccount)]).lookup
        serviceAccountKey = some sampleAccount ∧
      (loadModule refSdk [("PORT", "3000"), (serviceAccountKey, sampleAccount)]
          (freshProcess [("HOME", "/root")])).trace.head?
        = some (.jsonParse (some sampleAccount) (jsonParse sampleAccount)) ∧
      (loadModule refSdk [("PORT", "3000"), (serviceAccountKey, sampleAccount)]
          (freshProcess [("HOME", "/root")])).result
        = .ok [("admin", .object .adminModule), ("db", .object .firestore),
            ("adminAuth", .object .auth)]) ∧
    (List.lookup serviceAccountKey (freshProcess [(serviceAccountKey, "null")]).env
        = some "null" ∧
      (loadModule refSdk [(serviceAccountKey, sampleAccount)]
          (freshProcess [(serviceAccountKey, "null")])).trace.head?
        = some (.jsonParse (some "null") (jsonParse "null"))) :=
  ⟨⟨rfl, rfl,
      ((parses_value_after_dotenv refSdk [("PORT", "3000"), (serviceAccountKey, sampleAccount)]
        (freshProcess [("HOME", "/root")]) sampleAccount).1 rfl rfl).1,
      ((parses_value_after_dotenv refSdk [("PORT", "3000"), (serviceAccountKey, sampleAccount)]
        (freshProcess [("HOME", "/root")]) sampleAccount).1 rfl rfl).2
        sampleAccountJson (.credential sampleAccountJson) .app .firestore .auth
        ⟨none⟩ ⟨some sampleAccountJson⟩ ⟨some sampleAccountJson⟩ ⟨some sampleAccountJson⟩
        rfl rfl rfl rfl rfl⟩,
    ⟨rfl, (parses_value_after_dotenv refSdk [(serviceAccountKey, sampleAccount)]
      (freshProcess [(serviceAccountKey, "null")]) "null").2 rfl⟩⟩

end FirebaseConfig
